import Mathlib

/-!
Shallow embedding of the multi-chain wallet scout batch job
(src/unnamed/part_000, the incremental/checkpointing variant; the
filter logic is shared verbatim with src/index.js).

Modelling conventions:
* Files are fields of an explicit state record; a field of type
  Option models file existence (none = the file does not exist).
* Network probes (RPC balance reads, the catalog fetch) are the only
  fallible boundary; their outcomes are supplied by an oracle so that
  every run of the model corresponds to one concrete run of the script.
* JS number formatting: the script converts bigint balances to JS
  numbers through the viem helpers formatEther and formatUnits, which
  first render a decimal string.  We model the decimal string exactly
  (digit lists) and read it back as an exact rational; the final
  IEEE-754 rounding done by Number(...) is immaterial to every claim
  below (all comparisons are against 0 or are off by a power of ten).
-/

namespace WalletScout

/-- One parsed row of wallet-list.csv (columns the script reads). -/
structure SourceRecord where
  verified_credential_address : String
  verified_credential_format : String
  verified_credential_walletProvider : String
deriving DecidableEq

/-- Native currency descriptor inside a chain entry of CHAINS. -/
structure NativeCurrency where
  symbol : String
  decimals : Nat
deriving DecidableEq

/-- One entry of the CHAINS registry. -/
structure Chain where
  id : Nat
  name : String
  rpcUrl : String
  nativeCurrency : NativeCurrency
deriving DecidableEq

/-- A token descriptor from the catalog service.  The decimals field is
optional: the script reads token.decimals, which may be absent. -/
structure Token where
  address : String
  symbol : String
  name : String
  decimals : Option Nat
deriving DecidableEq

/-- The record pushed onto the module-level errors array. -/
structure ErrorRecord where
  chain : String
  token : String
  tokenAddress : String
  walletAddress : String
  operation : String
  error : String
deriving DecidableEq

/-- The object returned by checkNativeBalance / checkERC20Balance. -/
structure BalanceRecord where
  chain : String
  tokenType : String
  symbol : String
  balance : ℚ
  tokenAddress : String
  tokenName : String
  error : Option String
deriving DecidableEq

/-- A row of the two balance CSV files: the balance record spread
together with the wallet address (header
address,chain,tokenType,symbol,balance,tokenAddress,tokenName). -/
structure OutRow where
  address : String
  chain : String
  tokenType : String
  symbol : String
  balance : ℚ
  tokenAddress : String
  tokenName : String
deriving DecidableEq

/-- The CHAINS registry of src/unnamed/part_000 (every entry except
Ethereum is commented out there). -/
def CHAINS : List Chain :=
  [{ id := 1, name := "Ethereum", rpcUrl := "https://eth.llamarpc.com",
     nativeCurrency := { symbol := "ETH", decimals := 18 } }]

/-! ## viem number formatting

The script calls formatEther from viem.  In viem,
formatEther(wei, unit) looks the unit up in etherUnits = (gwei : 9,
wei : 18) and calls formatUnits(wei, etherUnits[unit]); the default
unit is the string wei.  checkERC20Balance instead passes a NUMBER as
the unit, so the lookup yields undefined and formatUnits runs with
decimals = undefined.  We embed formatUnits including the JS coercions
that undefined triggers:
  display.padStart(undefined)            leaves display unchanged,
  display.slice(0, length - undefined)   is the empty string,
  display.slice(length - undefined)      is the whole string. -/

/-- Decimal digit list of a natural number, as JS
BigInt.prototype.toString renders it. -/
def jsDigits (value : Nat) : List Char := Nat.toDigits 10 value

/-- The regex replace of trailing zeros in viem formatUnits. -/
def stripTrailingZeros (ds : List Char) : List Char :=
  (ds.reverse.dropWhile (fun c => c == '0')).reverse

/-- viem formatUnits(value, decimals), decimals possibly undefined
(none).  Nonnegative values only: the balances here are unsigned. -/
def formatUnitsJS (value : Nat) (decimals : Option Nat) : List Char :=
  let display0 := jsDigits value
  -- display = display.padStart(decimals, zero); padStart(undefined) is a no-op
  let target := match decimals with
    | some d => d
    | none => 0
  let display := List.replicate (target - display0.length) '0' ++ display0
  -- integer = display.slice(0, display.length - decimals); with undefined the end index is NaN, coerced to 0
  let cut := match decimals with
    | some d => display.length - d
    | none => 0
  let integer := display.take cut
  -- fraction = display.slice(display.length - decimals) with trailing zeros stripped; slice(NaN) starts at 0
  let fraction := stripTrailingZeros (display.drop cut)
  (if integer.isEmpty then ['0'] else integer) ++
    (if fraction.isEmpty then [] else '.' :: fraction)

/-- The unit argument of viem formatEther as the script supplies it:
either the default string wei or (incorrectly) a number. -/
inductive EtherUnit where
  | wei
  | gwei
  | num (n : Nat)
deriving DecidableEq

/-- The viem etherUnits table: numeric keys never match the two string
keys, so they look up to undefined. -/
def etherUnits : EtherUnit → Option Nat
  | .wei => some 18
  | .gwei => some 9
  | .num _ => none

/-- viem formatEther(value, unit) = formatUnits(value, etherUnits[unit]). -/
def formatEther (value : Nat) (unit : EtherUnit) : List Char :=
  formatUnitsJS value (etherUnits unit)

/-- Value of a digit list read in base 10. -/
def digitsVal (ds : List Char) : Nat :=
  ds.foldl (fun acc c => 10 * acc + (c.toNat - 48)) 0

/-- Number(s) for the decimal strings formatUnits emits, as an exact
rational (the IEEE-754 rounding of Number is not modelled; see the
file header). -/
def parseJsNumber (s : List Char) : ℚ :=
  let intPart := s.takeWhile (fun c => !(c == '.'))
  let fracPart := (s.dropWhile (fun c => !(c == '.'))).drop 1
  (digitsVal intPart : ℚ) + (digitsVal fracPart : ℚ) / (10 : ℚ) ^ fracPart.length

/-- JS token.decimals || 18: both an absent field and an explicit 0 are
falsy and fall back to 18. -/
def jsDecimalsOr18 : Option Nat → Nat
  | none => 18
  | some 0 => 18
  | some d => d

/-- JS address.startsWith(p), modelled on the character lists (the
addresses here are ASCII). -/
def jsStartsWith (s p : String) : Bool :=
  List.isPrefixOf p.data s.data

/-! ## Run state: the in-memory error array and the five files -/

/-- The mutable state of one run: the module-level errors array plus
the content of the output files and of wallet-list.csv.  A none file
does not exist yet.  The two balance CSV files are modelled as their
data rows (their constant header line is implicit in existence); the
error CSV keeps its header as an explicit first row because claim C8
counts it. -/
structure RunState where
  errors : List ErrorRecord
  errorJsonFile : Option (List ErrorRecord)
  errorCsvFile : Option (List (List String))
  allBalancesFile : Option (List OutRow)
  nonZeroFile : Option (List OutRow)
  walletListFile : List SourceRecord
deriving DecidableEq

/-- Header of balance-check-errors.csv. -/
def errorHeaders : List String :=
  ["chain", "token", "tokenAddress", "walletAddress", "operation", "error"]

/-- initializeOutputFiles: create each output file with its header only
when it does not exist yet. -/
def initializeOutputFiles (st : RunState) : RunState :=
  { st with
    allBalancesFile := match st.allBalancesFile with
      | none => some []
      | some rows => some rows
    nonZeroFile := match st.nonZeroFile with
      | none => some []
      | some rows => some rows
    errorCsvFile := match st.errorCsvFile with
      | none => some [errorHeaders]
      | some rows => some rows
    errorJsonFile := match st.errorJsonFile with
      | none => some []
      | some es => some es }

/-- appendToCsv on balance-check-errors.csv (fs.appendFileSync creates
the file when missing, without a header). -/
def appendErrorCsv (st : RunState) (row : List String) : RunState :=
  { st with errorCsvFile := some (st.errorCsvFile.getD [] ++ [row]) }

/-- appendToCsv on wallet-balances.csv. -/
def appendAllBalances (st : RunState) (row : OutRow) : RunState :=
  { st with allBalancesFile := some (st.allBalancesFile.getD [] ++ [row]) }

/-- appendToCsv on wallets-with-balance.csv. -/
def appendNonZero (st : RunState) (row : OutRow) : RunState :=
  { st with nonZeroFile := some (st.nonZeroFile.getD [] ++ [row]) }

/-- updateErrorJson: rewrite the whole JSON document with the current
in-memory errors array. -/
def updateErrorJson (st : RunState) : RunState :=
  { st with errorJsonFile := some st.errors }

/-- errors.push(e) on the module-level array. -/
def pushError (st : RunState) (e : ErrorRecord) : RunState :=
  { st with errors := st.errors ++ [e] }

/-! ## The fallible network boundary, supplied as oracle outcomes -/

/-- Outcome of one RPC read (getBalance or readContract balanceOf):
either the raw unsigned bigint, or a thrown error message. -/
inductive ProbeResult where
  | ok (raw : Nat)
  | err (msg : String)
deriving DecidableEq

/-- Outcome of the axios catalog request.  failure is a rejected
promise (network error or non-2xx status such as an auth failure).
success carries response.data (outer Option: is response.data truthy)
and inside it response.data.data (inner Option: is the data field
present). -/
inductive FetchOutcome where
  | failure (msg : String)
  | success (payload : Option (Option (List Token)))
deriving DecidableEq

/-- One deterministic schedule of network outcomes for a whole run. -/
structure Oracle where
  native : String → Chain → ProbeResult
  erc20 : String → Chain → Token → ProbeResult
  tokenlist : Nat → FetchOutcome

/-! ## fetchTokenList -/

/-- fetchTokenList(chainId): on a fulfilled response return
response.data.data when the success shape is present, else the empty
list with no error recorded; on a rejected request push an
ErrorRecord, rewrite the JSON mirror, append the CSV row, return []. -/
def fetchTokenList (chainId : Nat) (outcome : FetchOutcome) (st : RunState) :
    List Token × RunState :=
  match outcome with
  | .success payload =>
    match payload with
    | some (some tokens) => (tokens, st)
    | _ => ([], st)
  | .failure msg =>
    let e : ErrorRecord :=
      { chain := toString chainId, token := "N/A", tokenAddress := "N/A",
        walletAddress := "N/A", operation := "fetchTokenList", error := msg }
    let st1 := updateErrorJson (pushError st e)
    let st2 := appendErrorCsv st1
      [toString chainId, "N/A", "N/A", "N/A", "fetchTokenList", msg]
    ([], st2)

/-! ## Balance probers -/

/-- checkNativeBalance(address, chain): on success format the wei
balance with formatEther (default unit, 18 decimals); on a throw push
an ErrorRecord tagged checkNativeBalance, mirror it, append the CSV
row, and return a zero-balance record carrying the message. -/
def checkNativeBalance (address : String) (chain : Chain)
    (outcome : ProbeResult) (st : RunState) : BalanceRecord × RunState :=
  match outcome with
  | .ok raw =>
    let formattedBalance := parseJsNumber (formatEther raw .wei)
    ({ chain := chain.name, tokenType := "native",
       symbol := chain.nativeCurrency.symbol, balance := formattedBalance,
       tokenAddress := "native", tokenName := chain.nativeCurrency.symbol,
       error := none }, st)
  | .err msg =>
    let e : ErrorRecord :=
      { chain := chain.name, token := chain.nativeCurrency.symbol,
        tokenAddress := "native", walletAddress := address,
        operation := "checkNativeBalance", error := msg }
    let st1 := updateErrorJson (pushError st e)
    let st2 := appendErrorCsv st1
      [chain.name, chain.nativeCurrency.symbol, "native", address,
       "checkNativeBalance", msg]
    ({ chain := chain.name, tokenType := "native",
       symbol := chain.nativeCurrency.symbol, balance := 0,
       tokenAddress := "native", tokenName := chain.nativeCurrency.symbol,
       error := some msg }, st2)

/-- checkERC20Balance(address, chain, token): on success the script
computes decimals = token.decimals || 18 and then calls
formatEther(balance, decimals), passing the NUMBER decimals where
formatEther expects the unit string; on a throw push an ErrorRecord
tagged checkERC20Balance, mirror it, append the CSV row, and return a
zero-balance record carrying the message. -/
def checkERC20Balance (address : String) (chain : Chain) (token : Token)
    (outcome : ProbeResult) (st : RunState) : BalanceRecord × RunState :=
  match outcome with
  | .ok raw =>
    let decimals := jsDecimalsOr18 token.decimals
    let formattedBalance := parseJsNumber (formatEther raw (.num decimals))
    ({ chain := chain.name, tokenType := "erc20", symbol := token.symbol,
       balance := formattedBalance, tokenAddress := token.address,
       tokenName := token.name, error := none }, st)
  | .err msg =>
    let e : ErrorRecord :=
      { chain := chain.name, token := token.symbol,
        tokenAddress := token.address, walletAddress := address,
        operation := "checkERC20Balance", error := msg }
    let st1 := updateErrorJson (pushError st e)
    let st2 := appendErrorCsv st1
      [chain.name, token.symbol, token.address, address,
       "checkERC20Balance", msg]
    ({ chain := chain.name, tokenType := "erc20", symbol := token.symbol,
       balance := 0, tokenAddress := token.address, tokenName := token.name,
       error := some msg }, st2)

/-! ## Deriving the eligible wallet set -/

/-- The eligibility test of the records.forEach body in processWallets:
address truthy (a string is truthy when non-empty), address starts
with 0x, format is blockchain, walletProvider is embeddedWallet. -/
def eligibleRecord (record : SourceRecord) : Bool :=
  let address := record.verified_credential_address
  let format := record.verified_credential_format
  !(address == "") && jsStartsWith address "0x" && format == "blockchain" &&
    record.verified_credential_walletProvider == "embeddedWallet"

/-- wallets.add(address) on a JS Set modelled as its insertion-ordered
element list: a no-op when already present, else appended at the end. -/
def setAdd (ws : List String) (address : String) : List String :=
  if ws.contains address then ws else ws ++ [address]

/-- The wallet Set built by processWallets: records.forEach pushing
every eligible address into a JS Set, whose iteration order is
insertion order. -/
def deriveWallets (records : List SourceRecord) : List String :=
  records.foldl
    (fun ws record =>
      if eligibleRecord record then setAdd ws record.verified_credential_address
      else ws)
    []

/-! ## Token list map and the per-wallet probe loop -/

/-- The tokenLists object keyed by chain id; tokenLists[id] || [] reads
a missing key as the empty list (a present empty list is truthy and is
returned as is, which coincides). -/
def lookupTokens (tokenLists : List (Nat × List Token)) (chainId : Nat) :
    List Token :=
  (tokenLists.lookup chainId).getD []

/-- Observable steps of a run, for stating ordering claims.  checkpoint
carries the record list written to wallet-list.csv at that moment. -/
inductive Event where
  | fetchTokens (chainId : Nat)
  | probeNative (wallet chainName : String)
  | probeToken (wallet chainName tokenAddress : String)
  | checkpoint (wallet : String) (persisted : List SourceRecord)
deriving DecidableEq

/-- Result of a traced stateful step: the balance rows produced (with
the wallet address spread in), the hasNonZeroBalance flag, the state
after, and the emitted events. -/
structure StepOut where
  results : List OutRow
  hasNonZero : Bool
  state : RunState
  events : List Event

/-- The row appended to the balance CSV files: the wallet address
followed by the fields of the balance record, exactly as the literal
array in processWallet lists them. -/
def mkRow (address : String) (rec : BalanceRecord) : OutRow :=
  { address := address, chain := rec.chain, tokenType := rec.tokenType,
    symbol := rec.symbol, balance := rec.balance,
    tokenAddress := rec.tokenAddress, tokenName := rec.tokenName }

/-- The inner for-loop of processWallet over tokensToCheck: probe each
token, append to the non-zero file when balance > 0, then append to
the all-balances file. -/
def probeTokenList (o : Oracle) (address : String) (chain : Chain) :
    List Token → RunState → StepOut
  | [], st => { results := [], hasNonZero := false, state := st, events := [] }
  | token :: rest, st =>
    let out := checkERC20Balance address chain token (o.erc20 address chain token) st
    let row := mkRow address out.1
    let st1 := if 0 < out.1.balance then appendNonZero out.2 row else out.2
    let st2 := appendAllBalances st1 row
    let tail := probeTokenList o address chain rest st2
    { results := row :: tail.results,
      hasNonZero := (decide (0 < out.1.balance)) || tail.hasNonZero,
      state := tail.state,
      events := Event.probeToken address chain.name token.address :: tail.events }

/-- The outer for-loop of processWallet over CHAINS: native probe
first (non-zero append when positive, then unconditional all-balances
append), then the first 20 tokens of the catalog for that chain. -/
def processWalletOver (o : Oracle) (address : String)
    (tokenLists : List (Nat × List Token)) :
    List Chain → RunState → StepOut
  | [], st => { results := [], hasNonZero := false, state := st, events := [] }
  | chain :: restChains, st =>
    let native := checkNativeBalance address chain (o.native address chain) st
    let row := mkRow address native.1
    let st1 := if 0 < native.1.balance then appendNonZero native.2 row else native.2
    let st2 := appendAllBalances st1 row
    let tokens := lookupTokens tokenLists chain.id
    let tokensToCheck := tokens.take 20
    let tokenOut := probeTokenList o address chain tokensToCheck st2
    let tail := processWalletOver o address tokenLists restChains tokenOut.state
    { results := row :: (tokenOut.results ++ tail.results),
      hasNonZero := (decide (0 < native.1.balance)) || tokenOut.hasNonZero
        || tail.hasNonZero,
      state := tail.state,
      events := (Event.probeNative address chain.name :: tokenOut.events)
        ++ tail.events }

/-- processWallet(address, tokenLists): the loop above over the CHAINS
registry. -/
def processWallet (o : Oracle) (address : String)
    (tokenLists : List (Nat × List Token)) (st : RunState) : StepOut :=
  processWalletOver o address tokenLists CHAINS st

/-! ## Checkpointing and the main loop -/

/-- The removal predicate of updateWalletListCsv: address equals the
completed wallet, format is blockchain, walletProvider is
embeddedWallet. -/
def removalMatch (record : SourceRecord) (addressToRemove : String) : Bool :=
  record.verified_credential_address == addressToRemove &&
    record.verified_credential_format == "blockchain" &&
    record.verified_credential_walletProvider == "embeddedWallet"

/-- updateWalletListCsv(records, addressToRemove): filter out every
matching row, rewrite wallet-list.csv with the remainder, and return
the remainder. -/
def updateWalletListCsv (records : List SourceRecord)
    (addressToRemove : String) (st : RunState) :
    List SourceRecord × RunState :=
  let updatedRecords := records.filter (fun record => !(removalMatch record addressToRemove))
  (updatedRecords, { st with walletListFile := updatedRecords })

/-- The token list caching loop of processWallets: one fetchTokenList
call per chain of the registry, in registry order. -/
def fetchAllTokenLists (o : Oracle) :
    List Chain → RunState → List (Nat × List Token) × RunState × List Event
  | [], st => ([], st, [])
  | chain :: rest, st =>
    let fetched := fetchTokenList chain.id (o.tokenlist chain.id) st
    let tail := fetchAllTokenLists o rest fetched.2
    ((chain.id, fetched.1) :: tail.1, tail.2.1,
      Event.fetchTokens chain.id :: tail.2.2)

/-- The for-of loop of processWallets over the wallet Set: process a
wallet fully, then checkpoint it out of the records and the persisted
wallet-list.csv. -/
def runWallets (o : Oracle) (tokenLists : List (Nat × List Token)) :
    List String → List SourceRecord → RunState → RunState × List Event
  | [], _, st => (st, [])
  | address :: rest, records, st =>
    let pout := processWallet o address tokenLists st
    let upd := updateWalletListCsv records address pout.state
    let tail := runWallets o tokenLists rest upd.1 upd.2
    (tail.1, pout.events ++ Event.checkpoint address upd.1 :: tail.2)

/-- processWallets(): initialize the output files, read and parse
wallet-list.csv, derive the wallet Set, cache the token lists once per
chain, then process the wallets one by one with a checkpoint after
each. -/
def processWallets (o : Oracle) (st0 : RunState) : RunState × List Event :=
  let st1 := initializeOutputFiles st0
  let records := st1.walletListFile
  let wallets := deriveWallets records
  let fetched := fetchAllTokenLists o CHAINS st1
  let main := runWallets o fetched.1 wallets records fetched.2.1
  (main.1, fetched.2.2 ++ main.2)

/-! ## Spec-side definitions (stated from the specification wording,
to be compared with the source-derived functions above) -/

/-- Deduplication keeping the first occurrence of each element, the
spec reading of: distinct addresses, duplicates collapse, insertion
order preserved. -/
def distinctKeepFirst : List String → List String
  | [] => []
  | a :: rest => a :: distinctKeepFirst (rest.filter (fun b => !(b == a)))
termination_by l => l.length
decreasing_by
  simp only [List.length_cons]
  exact Nat.lt_succ_of_le (List.length_filter_le _ _)

/-- The eligibility predicate in the words of the spec: a non-empty
address starting with 0x, format blockchain, provider embeddedWallet. -/
def specEligible (record : SourceRecord) : Prop :=
  record.verified_credential_address ≠ "" ∧
    jsStartsWith record.verified_credential_address "0x" = true ∧
    record.verified_credential_format = "blockchain" ∧
    record.verified_credential_walletProvider = "embeddedWallet"

/-- The probe itinerary the spec prescribes for one wallet: chains in
registry order; per chain the native probe first, then the first 20
catalog tokens in catalog order. -/
def probePlan (address : String) (tokenLists : List (Nat × List Token)) :
    List Chain → List Event
  | [] => []
  | chain :: rest =>
    Event.probeNative address chain.name ::
      (((lookupTokens tokenLists chain.id).take 20).map
          (fun t => Event.probeToken address chain.name t.address)
        ++ probePlan address tokenLists rest)

/-- Is this event a balance probe (native or token) of the given
wallet. -/
def isProbeOf (w : String) : Event → Bool
  | .probeNative a _ => a == w
  | .probeToken a _ _ => a == w
  | _ => false

/-- Is this event any balance probe at all. -/
def isProbe : Event → Bool
  | .probeNative _ _ => true
  | .probeToken _ _ _ => true
  | _ => false

/-- Is this event the checkpoint of the given wallet. -/
def isCheckpointOf (w : String) : Event → Bool
  | .checkpoint a _ => a == w
  | _ => false

/-- The CSV row that mirrors an ErrorRecord, column for column. -/
def errRow (e : ErrorRecord) : List String :=
  [e.chain, e.token, e.tokenAddress, e.walletAddress, e.operation, e.error]

/-- The error mirroring invariant of the spec: the JSON document is
exactly the accumulated in-memory error list, and the error CSV is the
header row followed by one matching row per error. -/
def errorMirror (st : RunState) : Prop :=
  st.errorJsonFile = some st.errors ∧
    st.errorCsvFile = some (errorHeaders :: st.errors.map errRow)

/-! ## Concrete fixtures used by witnesses and counterexamples -/

/-- C10 witness data: an eligible row for one wallet. -/
def recA : SourceRecord :=
  { verified_credential_address := "0xa",
    verified_credential_format := "blockchain",
    verified_credential_walletProvider := "embeddedWallet" }

/-- C10 witness data: a row sharing the address of recA but with a
different wallet provider, hence not removable. -/
def recAOther : SourceRecord :=
  { verified_credential_address := "0xa",
    verified_credential_format := "blockchain",
    verified_credential_walletProvider := "browserExtension" }

/-- C10 witness data: an eligible row for a second wallet. -/
def recB : SourceRecord :=
  { verified_credential_address := "0xb",
    verified_credential_format := "blockchain",
    verified_credential_walletProvider := "embeddedWallet" }

/-- A state for a process that has not created any file yet and whose
wallet-list.csv is empty. -/
def stFresh : RunState :=
  { errors := [], errorJsonFile := none, errorCsvFile := none,
    allBalancesFile := none, nonZeroFile := none, walletListFile := [] }

/-- C4 fixture: a token whose catalog entry declares 6 decimals. -/
def tokenSixDecimals : Token :=
  { address := "0xtok", symbol := "TOK", name := "Token", decimals := some 6 }

/-- C4 fixture: the Ethereum chain entry of CHAINS. -/
def chainEthereum : Chain :=
  { id := 1, name := "Ethereum", rpcUrl := "https://eth.llamarpc.com",
    nativeCurrency := { symbol := "ETH", decimals := 18 } }

/-- Folding setAdd over a list of addresses, the JS Set bulk insert. -/
def addAll (ws : List String) (xs : List String) : List String :=
  xs.foldl setAdd ws

/-- An oracle for a fully successful run: zero balances everywhere and
an empty catalog per chain. -/
def oOk : Oracle :=
  { native := fun _ _ => .ok 0,
    erc20 := fun _ _ _ => .ok 0,
    tokenlist := fun _ => .success (some (some [])) }

/-- An oracle whose catalog requests are all rejected. -/
def oBoom : Oracle :=
  { native := fun _ _ => .ok 0,
    erc20 := fun _ _ _ => .ok 0,
    tokenlist := fun _ => .failure "boom" }

/-- A state left behind by a previous run: one old error row already
persisted in the error CSV, error JSON present, source list empty. -/
def stStale : RunState :=
  { errors := [], errorJsonFile := some [],
    errorCsvFile := some [errorHeaders,
      ["Ethereum", "ETH", "native", "0xold", "checkNativeBalance",
       "old failure"]],
    allBalancesFile := some [], nonZeroFile := some [], walletListFile := [] }

/-- A state in which every output file already exists (as after a
completed prior run) and the source list is already empty. -/
def stInitialized : RunState :=
  { errors := [], errorJsonFile := some [], errorCsvFile := some [errorHeaders],
    allBalancesFile := some [], nonZeroFile := some [], walletListFile := [] }

/-- A fresh state whose source list holds a single eligible row. -/
def stOneWallet : RunState :=
  { errors := [], errorJsonFile := none, errorCsvFile := none,
    allBalancesFile := none, nonZeroFile := none, walletListFile := [recA] }

/-! ## Claim C2: the balance probers absorb every failure -/

/-- C2: for every address, chain and token, the two probers never
propagate an exception (they are total functions into BalanceRecord):
on a probe failure each appends exactly one ErrorRecord tagged with
its own operation name and returns a zero-balance record carrying the
message, and on success they append no error at all. -/
theorem probers_absorb_failures (st : RunState) (address : String)
    (chain : Chain) (token : Token) (msg : String) (raw : Nat) :
    ((checkNativeBalance address chain (.err msg) st).1.balance = 0 ∧
      (checkNativeBalance address chain (.err msg) st).1.error = some msg ∧
      ∃ e, (checkNativeBalance address chain (.err msg) st).2.errors
          = st.errors ++ [e] ∧
        e.operation = "checkNativeBalance" ∧ e.walletAddress = address ∧
        e.error = msg) ∧
    ((checkNativeBalance address chain (.ok raw) st).2.errors = st.errors ∧
      (checkNativeBalance address chain (.ok raw) st).1.error = none) ∧
    ((checkERC20Balance address chain token (.err msg) st).1.balance = 0 ∧
      (checkERC20Balance address chain token (.err msg) st).1.error = some msg ∧
      ∃ e, (checkERC20Balance address chain token (.err msg) st).2.errors
          = st.errors ++ [e] ∧
        e.operation = "checkERC20Balance" ∧ e.walletAddress = address ∧
        e.error = msg) ∧
    ((checkERC20Balance address chain token (.ok raw) st).2.errors = st.errors ∧
      (checkERC20Balance address chain token (.ok raw) st).1.error = none) := by
  refine ⟨⟨rfl, rfl, ⟨_, rfl, rfl, rfl, rfl⟩⟩, ⟨rfl, rfl⟩,
    ⟨rfl, rfl, ⟨_, rfl, rfl, rfl, rfl⟩⟩, ⟨rfl, rfl⟩⟩

/-! ## Claim C10: the checkpoint filter is frame-preserving -/

/-- C10: updateWalletListCsv keeps, in their original order (the
result is a sublist of the input), every record that does not match
the removal predicate, with unchanged multiplicity; only non-matching
records remain; and the persisted wallet list file receives exactly
the returned remainder. -/
theorem updateWalletListCsv_frame (records : List SourceRecord)
    (addressToRemove : String) (st : RunState) :
    List.Sublist (updateWalletListCsv records addressToRemove st).1 records ∧
    (∀ r : SourceRecord, removalMatch r addressToRemove = false →
      (updateWalletListCsv records addressToRemove st).1.count r
        = records.count r) ∧
    (∀ r ∈ (updateWalletListCsv records addressToRemove st).1,
      removalMatch r addressToRemove = false) ∧
    (updateWalletListCsv records addressToRemove st).2.walletListFile
      = (updateWalletListCsv records addressToRemove st).1 := by
  refine ⟨List.filter_sublist records, ?_, ?_, rfl⟩
  · intro r hr
    unfold updateWalletListCsv
    simp only [List.count_filter, hr, Bool.not_false, if_pos]
  · intro r hr
    have := List.of_mem_filter hr
    simpa using this

/-- C10 witness: at a concrete checkpoint, the row of another wallet
and the same-address row with a different provider both survive with
their multiplicities, and every survivor is non-matching. -/
theorem updateWalletListCsv_frame_witness :
    (removalMatch recAOther "0xa" = false ∧
      (updateWalletListCsv [recA, recAOther, recB] "0xa" stFresh).1.count recAOther
        = [recA, recAOther, recB].count recAOther) ∧
    (removalMatch recB "0xa" = false ∧
      (updateWalletListCsv [recA, recAOther, recB] "0xa" stFresh).1.count recB
        = [recA, recAOther, recB].count recB) := by
  have h := updateWalletListCsv_frame [recA, recAOther, recB] "0xa" stFresh
  exact ⟨⟨by decide, h.2.1 recAOther (by decide)⟩,
    ⟨by decide, h.2.1 recB (by decide)⟩⟩

/-! ## Claim C5: catalog fetch failure handling -/

/-- C5 (amended): when the catalog request is rejected (network or
auth failure), fetchTokenList appends exactly one ErrorRecord with
operation fetchTokenList, chain the stringified chain id and wallet
N/A, mirrors it to the JSON file, appends the matching CSV row, and
returns the empty list; a fulfilled response never touches the state,
yields the data field when the success shape is present and the empty
list otherwise (so a malformed payload yields no tokens but also no
error record). -/
theorem fetchTokenList_failure_policy (chainId : Nat) (st : RunState)
    (msg : String) (payload : Option (Option (List Token)))
    (tokens : List Token) :
    ((fetchTokenList chainId (.failure msg) st).1 = [] ∧
      (fetchTokenList chainId (.failure msg) st).2.errors = st.errors ++
        [{ chain := toString chainId, token := "N/A", tokenAddress := "N/A",
           walletAddress := "N/A", operation := "fetchTokenList",
           error := msg }] ∧
      (fetchTokenList chainId (.failure msg) st).2.errorJsonFile
        = some ((fetchTokenList chainId (.failure msg) st).2.errors) ∧
      (fetchTokenList chainId (.failure msg) st).2.errorCsvFile
        = some (st.errorCsvFile.getD [] ++
            [[toString chainId, "N/A", "N/A", "N/A", "fetchTokenList", msg]])) ∧
    ((fetchTokenList chainId (.success payload) st).2 = st) ∧
    ((fetchTokenList chainId (.success (some (some tokens))) st).1 = tokens) ∧
    ((fetchTokenList chainId (.success (some none)) st).1 = []) ∧
    ((fetchTokenList chainId (.success none) st).1 = []) := by
  refine ⟨⟨rfl, rfl, rfl, rfl⟩, ?_, rfl, rfl, rfl⟩
  rcases payload with _ | (_ | _) <;> rfl

/-- C5 counterexample to the claim as stated: a fulfilled response
whose payload lacks the expected data field (a malformed payload) is
not the success shape, yet the run state is completely unchanged; in
particular no ErrorRecord with operation fetchTokenList is appended,
contradicting the claim that every such failure appends one. -/
theorem fetchTokenList_malformed_appends_nothing :
    (fetchTokenList 1 (.success (some none)) stFresh).1 = [] ∧
    (fetchTokenList 1 (.success (some none)) stFresh).2 = stFresh ∧
    (fetchTokenList 1 (.success (some none)) stFresh).2.errors = [] :=
  ⟨rfl, rfl, rfl⟩

/-! ## Claim C4: ERC20 balance scaling -/

/-- C4 (code bug evidence): for a successful balanceOf of 1500000 on a
token with 6 decimals, the claim (and the spec) demand the scaled
balance 1500000 / 10^6 = 3/2, but the code passes the number 6 as the
unit argument of viem formatEther, whose unit lookup yields undefined,
so the digits are rendered as the pure fraction 0.15 and the stored
balance is 3/20. -/
theorem checkERC20Balance_scaling_bug :
    (checkERC20Balance "0xwallet" chainEthereum tokenSixDecimals
        (.ok 1500000) stFresh).1.balance = 3 / 20 ∧
    (1500000 : ℚ) / 10 ^ 6 = 3 / 2 ∧
    (3 : ℚ) / 20 ≠ 3 / 2 := by
  refine ⟨?_, by norm_num, by norm_num⟩
  show parseJsNumber
    (formatEther 1500000 (.num (jsDecimalsOr18 tokenSixDecimals.decimals))) = 3 / 20
  have h : formatEther 1500000 (.num (jsDecimalsOr18 tokenSixDecimals.decimals))
      = ['0', '.', '1', '5'] := by decide
  rw [h]
  have h2 : List.takeWhile (fun c => !(c == '.')) ['0', '.', '1', '5']
      = ['0'] := by decide
  have h3 : (List.dropWhile (fun c => !(c == '.')) ['0', '.', '1', '5']).drop 1
      = ['1', '5'] := by decide
  have h4 : digitsVal ['0'] = 0 := by decide
  have h5 : digitsVal ['1', '5'] = 15 := by decide
  simp only [parseJsNumber, h2, h3, h4, h5]
  norm_num

/-! ## Claim C3: the derived wallet set -/

theorem deriveWallets_eq_addAll (records : List SourceRecord) :
    ∀ acc : List String,
      records.foldl
        (fun ws record =>
          if eligibleRecord record then
            setAdd ws record.verified_credential_address
          else ws)
        acc
      = addAll acc
          ((records.filter eligibleRecord).map
            SourceRecord.verified_credential_address) := by
  induction records with
  | nil => intro acc; rfl
  | cons r rs ih =>
    intro acc
    by_cases h : eligibleRecord r = true
    · simp only [List.foldl_cons, List.filter_cons, h, if_pos, List.map_cons]
      exact ih (setAdd acc r.verified_credential_address)
    · simp only [List.foldl_cons, List.filter_cons, h, if_neg, Bool.false_eq_true,
        if_false]
      exact ih acc

theorem contains_append_singleton (acc : List String) (x b : String) :
    (acc ++ [x]).contains b = (acc.contains b || (b == x)) := by
  show List.elem b (acc ++ [x]) = (List.elem b acc || (b == x))
  induction acc with
  | nil => cases h : b == x <;> simp only [List.nil_append, List.elem, h] <;> rfl
  | cons a acc ih =>
    cases h : b == a
    · simp only [List.cons_append, List.elem, h]
      exact ih
    · simp only [List.cons_append, List.elem, h]
      exact (Bool.true_or _).symm

theorem addAll_spec (xs : List String) :
    ∀ acc : List String,
      addAll acc xs
        = acc ++ distinctKeepFirst (xs.filter (fun b => !(acc.contains b))) := by
  induction xs with
  | nil => intro acc; simp [addAll, distinctKeepFirst]
  | cons x xs ih =>
    intro acc
    have hstep : addAll acc (x :: xs) = addAll (setAdd acc x) xs := rfl
    by_cases h : acc.contains x = true
    · rw [hstep, ih (setAdd acc x)]
      simp only [setAdd, h, if_pos, List.filter_cons, Bool.not_true,
        Bool.false_eq_true, if_false]
    · have h' : acc.contains x = false := by
        cases hc : acc.contains x
        · rfl
        · exact absurd hc h
      rw [hstep, ih (setAdd acc x)]
      simp only [setAdd, h', Bool.false_eq_true, if_false]
      have hfilter : xs.filter (fun b => !((acc ++ [x]).contains b))
          = (xs.filter (fun b => !(acc.contains b))).filter
              (fun b => !(b == x)) := by
        rw [List.filter_filter]
        apply List.filter_congr
        intro b _
        rw [contains_append_singleton]
        cases hb : acc.contains b <;> cases hbx : b == x <;> simp [hb, hbx]
      rw [hfilter]
      have hd : distinctKeepFirst ((x :: xs).filter (fun b => !(acc.contains b)))
          = x :: distinctKeepFirst
              ((xs.filter (fun b => !(acc.contains b))).filter
                (fun b => !(b == x))) := by
        simp only [List.filter_cons, h', Bool.not_false, if_pos]
        rw [distinctKeepFirst]
      rw [hd]
      simp [List.append_assoc]

/-- C3: the wallet set processWallets derives is exactly the
first-occurrence deduplication of the eligible addresses in source
order, and the code eligibility test coincides with the spec
predicate (non-empty address starting with 0x, format blockchain,
provider embeddedWallet). -/
theorem deriveWallets_matches_spec (records : List SourceRecord) :
    deriveWallets records
      = distinctKeepFirst
          ((records.filter eligibleRecord).map
            SourceRecord.verified_credential_address) ∧
    ∀ r : SourceRecord, eligibleRecord r = true ↔ specEligible r := by
  constructor
  · rw [deriveWallets, deriveWallets_eq_addAll records [], addAll_spec]
    simp [List.contains]
  · intro r
    simp [eligibleRecord, specEligible, Bool.and_eq_true, and_assoc]

/-! ## Claim C6: probe itinerary of one wallet -/

theorem probeTokenList_events (o : Oracle) (address : String) (chain : Chain) :
    ∀ (ts : List Token) (st : RunState),
      (probeTokenList o address chain ts st).events
        = ts.map (fun t => Event.probeToken address chain.name t.address) := by
  intro ts
  induction ts with
  | nil => intro st; rfl
  | cons t ts ih =>
    intro st
    simp only [probeTokenList, List.map_cons, List.cons.injEq, true_and]
    exact ih _

theorem processWalletOver_events (o : Oracle) (address : String)
    (tokenLists : List (Nat × List Token)) :
    ∀ (chains : List Chain) (st : RunState),
      (processWalletOver o address tokenLists chains st).events
        = probePlan address tokenLists chains := by
  intro chains
  induction chains with
  | nil => intro st; rfl
  | cons chain rest ih =>
    intro st
    simp only [processWalletOver, probePlan, List.cons_append, List.cons.injEq,
      true_and]
    rw [probeTokenList_events, ih]

/-- C6: for every wallet, the probe trace of the per-wallet loop is
exactly the plan: every configured chain in registry order, the native
probe first on each chain, then the first 20 catalog tokens of that
chain in catalog order; and the number of token probes per chain is
min 20 (catalog size), so a 50-token catalog yields exactly 20. -/
theorem processWallet_probe_itinerary (o : Oracle) (address : String)
    (tokenLists : List (Nat × List Token)) (chains : List Chain)
    (st : RunState) :
    (processWalletOver o address tokenLists chains st).events
      = probePlan address tokenLists chains ∧
    (∀ (tl : List (Nat × List Token)) (chainId : Nat),
      ((lookupTokens tl chainId).take 20).length
        = min 20 (lookupTokens tl chainId).length) ∧
    (processWallet o address tokenLists st).events
      = probePlan address tokenLists CHAINS := by
  refine ⟨processWalletOver_events o address tokenLists chains st, ?_,
    processWalletOver_events o address tokenLists CHAINS st⟩
  intro tl chainId
  exact List.length_take 20 (lookupTokens tl chainId)

/-! ## Claim C7: the two balance output streams -/

theorem checkNativeBalance_balance_files (address : String) (chain : Chain)
    (outcome : ProbeResult) (st : RunState) :
    (checkNativeBalance address chain outcome st).2.allBalancesFile
        = st.allBalancesFile ∧
      (checkNativeBalance address chain outcome st).2.nonZeroFile
        = st.nonZeroFile ∧
      (checkNativeBalance address chain outcome st).2.walletListFile
        = st.walletListFile := by
  cases outcome <;> exact ⟨rfl, rfl, rfl⟩

theorem checkERC20Balance_balance_files (address : String) (chain : Chain)
    (token : Token) (outcome : ProbeResult) (st : RunState) :
    (checkERC20Balance address chain token outcome st).2.allBalancesFile
        = st.allBalancesFile ∧
      (checkERC20Balance address chain token outcome st).2.nonZeroFile
        = st.nonZeroFile ∧
      (checkERC20Balance address chain token outcome st).2.walletListFile
        = st.walletListFile := by
  cases outcome <;> exact ⟨rfl, rfl, rfl⟩

theorem probeTokenList_output_rows (o : Oracle) (address : String)
    (chain : Chain) :
    ∀ (ts : List Token) (st : RunState),
      (probeTokenList o address chain ts st).state.allBalancesFile.getD []
        = st.allBalancesFile.getD []
          ++ (probeTokenList o address chain ts st).results ∧
      (probeTokenList o address chain ts st).state.nonZeroFile.getD []
        = st.nonZeroFile.getD []
          ++ (probeTokenList o address chain ts st).results.filter
              (fun row => decide (0 < row.balance)) := by
  intro ts
  induction ts with
  | nil => intro st; simp [probeTokenList]
  | cons t ts ih =>
    intro st
    have hstate := checkERC20Balance_balance_files address chain t
      (o.erc20 address chain t) st
    by_cases hpos :
      0 < (checkERC20Balance address chain t (o.erc20 address chain t) st).1.balance
    all_goals
      constructor <;>
        simp [probeTokenList, hpos, mkRow, appendAllBalances, appendNonZero,
          hstate.1, hstate.2.1, ih, List.filter_cons, List.append_assoc]

/-- C7: over the per-wallet loop, the all-balances file gains exactly
every produced balance row, unconditionally, and the non-zero file
gains exactly those rows whose balance is strictly positive: a row is
appended there if and only if balance > 0. -/
theorem processWallet_output_streams (o : Oracle) (address : String)
    (tokenLists : List (Nat × List Token)) :
    ∀ (chains : List Chain) (st : RunState),
      (processWalletOver o address tokenLists chains st).state.allBalancesFile.getD []
        = st.allBalancesFile.getD []
          ++ (processWalletOver o address tokenLists chains st).results ∧
      (processWalletOver o address tokenLists chains st).state.nonZeroFile.getD []
        = st.nonZeroFile.getD []
          ++ (processWalletOver o address tokenLists chains st).results.filter
              (fun row => decide (0 < row.balance)) := by
  intro chains
  induction chains with
  | nil => intro st; simp [processWalletOver]
  | cons chain rest ih =>
    intro st
    have hstate := checkNativeBalance_balance_files address chain
      (o.native address chain) st
    have htok := probeTokenList_output_rows o address chain
      ((lookupTokens tokenLists chain.id).take 20)
    by_cases hpos :
      0 < (checkNativeBalance address chain (o.native address chain) st).1.balance
    all_goals
      constructor <;>
        simp [processWalletOver, hpos, mkRow, appendAllBalances, appendNonZero,
          hstate.1, hstate.2.1, ih, htok, List.filter_cons, List.filter_append,
          List.append_assoc]

/-! ## Claim C8: error mirroring -/

theorem initializeOutputFiles_walletList (st : RunState) :
    (initializeOutputFiles st).walletListFile = st.walletListFile := rfl

theorem initializeOutputFiles_effects (st : RunState) :
    (initializeOutputFiles st).errors = st.errors ∧
    (initializeOutputFiles st).allBalancesFile.getD []
      = st.allBalancesFile.getD [] ∧
    (initializeOutputFiles st).nonZeroFile.getD []
      = st.nonZeroFile.getD [] := by
  refine ⟨rfl, ?_, ?_⟩
  · cases h : st.allBalancesFile <;> simp [initializeOutputFiles, h]
  · cases h : st.nonZeroFile <;> simp [initializeOutputFiles, h]

theorem initializeOutputFiles_mirror (st : RunState) (he : st.errors = [])
    (hc : st.errorCsvFile = none) (hj : st.errorJsonFile = none) :
    errorMirror (initializeOutputFiles st) := by
  constructor
  · show (match st.errorJsonFile with
      | none => some []
      | some es => some es) = some st.errors
    rw [hj, he]
  · show (match st.errorCsvFile with
      | none => some [errorHeaders]
      | some rows => some rows) = some (errorHeaders :: st.errors.map errRow)
    rw [hc, he]
    rfl

theorem fetchTokenList_mirror (chainId : Nat) (outcome : FetchOutcome)
    (st : RunState) (h : errorMirror st) :
    errorMirror (fetchTokenList chainId outcome st).2 := by
  cases outcome with
  | success payload => rcases payload with _ | (_ | _) <;> exact h
  | failure msg =>
    refine ⟨rfl, ?_⟩
    show some (st.errorCsvFile.getD [] ++ _) = _
    rw [h.2]
    simp [errRow, fetchTokenList, pushError, updateErrorJson, appendErrorCsv]

theorem checkNativeBalance_mirror (address : String) (chain : Chain)
    (outcome : ProbeResult) (st : RunState) (h : errorMirror st) :
    errorMirror (checkNativeBalance address chain outcome st).2 := by
  cases outcome with
  | ok raw => exact h
  | err msg =>
    refine ⟨rfl, ?_⟩
    show some (st.errorCsvFile.getD [] ++ _) = _
    rw [h.2]
    simp [errRow, checkNativeBalance, pushError, updateErrorJson, appendErrorCsv]

theorem checkERC20Balance_mirror (address : String) (chain : Chain)
    (token : Token) (outcome : ProbeResult) (st : RunState)
    (h : errorMirror st) :
    errorMirror (checkERC20Balance address chain token outcome st).2 := by
  cases outcome with
  | ok raw => exact h
  | err msg =>
    refine ⟨rfl, ?_⟩
    show some (st.errorCsvFile.getD [] ++ _) = _
    rw [h.2]
    simp [errRow, checkERC20Balance, pushError, updateErrorJson, appendErrorCsv]

theorem appendAllBalances_mirror (st : RunState) (row : OutRow)
    (h : errorMirror st) : errorMirror (appendAllBalances st row) := h

theorem appendNonZero_mirror (st : RunState) (row : OutRow)
    (h : errorMirror st) : errorMirror (appendNonZero st row) := h

theorem probeTokenList_mirror (o : Oracle) (address : String) (chain : Chain) :
    ∀ (ts : List Token) (st : RunState), errorMirror st →
      errorMirror (probeTokenList o address chain ts st).state := by
  intro ts
  induction ts with
  | nil => intro st h; exact h
  | cons t ts ih =>
    intro st h
    have h1 := checkERC20Balance_mirror address chain t
      (o.erc20 address chain t) st h
    simp only [probeTokenList]
    apply ih
    apply appendAllBalances_mirror
    split
    · exact appendNonZero_mirror _ _ h1
    · exact h1

theorem processWalletOver_mirror (o : Oracle) (address : String)
    (tokenLists : List (Nat × List Token)) :
    ∀ (chains : List Chain) (st : RunState), errorMirror st →
      errorMirror (processWalletOver o address tokenLists chains st).state := by
  intro chains
  induction chains with
  | nil => intro st h; exact h
  | cons chain rest ih =>
    intro st h
    have h1 := checkNativeBalance_mirror address chain
      (o.native address chain) st h
    simp only [processWalletOver]
    apply ih
    apply probeTokenList_mirror
    apply appendAllBalances_mirror
    split
    · exact appendNonZero_mirror _ _ h1
    · exact h1

theorem updateWalletListCsv_mirror (records : List SourceRecord)
    (address : String) (st : RunState) (h : errorMirror st) :
    errorMirror (updateWalletListCsv records address st).2 := h

theorem fetchAllTokenLists_mirror (o : Oracle) :
    ∀ (chains : List Chain) (st : RunState), errorMirror st →
      errorMirror (fetchAllTokenLists o chains st).2.1 := by
  intro chains
  induction chains with
  | nil => intro st h; exact h
  | cons chain rest ih =>
    intro st h
    exact ih _ (fetchTokenList_mirror chain.id (o.tokenlist chain.id) st h)

theorem runWallets_mirror (o : Oracle) (tokenLists : List (Nat × List Token)) :
    ∀ (ws : List String) (records : List SourceRecord) (st : RunState),
      errorMirror st → errorMirror (runWallets o tokenLists ws records st).1 := by
  intro ws
  induction ws with
  | nil => intro records st h; exact h
  | cons w rest ih =>
    intro records st h
    exact ih _ _ (updateWalletListCsv_mirror _ _ _
      (processWalletOver_mirror o w tokenLists CHAINS st h))

/-- C8 (amended): for a run whose error output files do not exist yet
(a fresh process: empty in-memory error list, no error CSV, no error
JSON), the mirroring invariant holds after initialization and is
preserved by every operation of the run, hence holds after every
absorbed failure: the JSON document is exactly the accumulated error
list (rewritten in full), and the error CSV is the header row followed
by one row per error with matching field values, so the JSON length
equals the CSV row count minus the header.  A run resumed over error
files left by a prior run does not satisfy the equality (see the
counterexample). -/
theorem error_mirror_policy :
    (∀ st : RunState, st.errors = [] → st.errorCsvFile = none →
      st.errorJsonFile = none → errorMirror (initializeOutputFiles st)) ∧
    (∀ (address : String) (chain : Chain) (outcome : ProbeResult)
      (st : RunState), errorMirror st →
      errorMirror (checkNativeBalance address chain outcome st).2) ∧
    (∀ (address : String) (chain : Chain) (token : Token)
      (outcome : ProbeResult) (st : RunState), errorMirror st →
      errorMirror (checkERC20Balance address chain token outcome st).2) ∧
    (∀ (chainId : Nat) (outcome : FetchOutcome) (st : RunState),
      errorMirror st → errorMirror (fetchTokenList chainId outcome st).2) ∧
    (∀ (o : Oracle) (st0 : RunState), st0.errors = [] →
      st0.errorCsvFile = none → st0.errorJsonFile = none →
      errorMirror (processWallets o st0).1) ∧
    (∀ st : RunState, errorMirror st →
      st.errorJsonFile = some st.errors ∧
      (st.errorJsonFile.getD []).length + 1
        = (st.errorCsvFile.getD []).length) := by
  refine ⟨initializeOutputFiles_mirror, checkNativeBalance_mirror,
    checkERC20Balance_mirror, fetchTokenList_mirror, ?_, ?_⟩
  · intro o st0 he hc hj
    exact runWallets_mirror o _ _ _ _
      (fetchAllTokenLists_mirror o CHAINS _
        (initializeOutputFiles_mirror st0 he hc hj))
  · intro st h
    refine ⟨h.1, ?_⟩
    rw [h.1, h.2]
    simp

/-- C8 witness state is stFresh; this applies the run-level conjunct
of the mirroring theorem at the concrete fresh state and oracle. -/
theorem error_mirror_policy_witness :
    errorMirror (processWallets oOk stFresh).1 :=
  error_mirror_policy.2.2.2.2.1 oOk stFresh rfl rfl rfl

/-- C8 counterexample to the claim as stated: resuming over error
files left by a prior run (stStale), one absorbed catalog-fetch
failure makes the JSON document hold 1 entry while the error CSV holds
3 rows, so its length is not the CSV row count minus the header row. -/
theorem error_mirror_policy_counterexample :
    ¬ (((processWallets oBoom stStale).1.errorJsonFile.getD []).length
        = ((processWallets oBoom stStale).1.errorCsvFile.getD []).length - 1) := by
  decide

/-! ## Claim C9: run over an already-emptied source list -/

theorem fetchTokenList_effects (chainId : Nat) (outcome : FetchOutcome)
    (st : RunState) :
    (fetchTokenList chainId outcome st).2.allBalancesFile
        = st.allBalancesFile ∧
    (fetchTokenList chainId outcome st).2.nonZeroFile = st.nonZeroFile ∧
    (fetchTokenList chainId outcome st).2.walletListFile
        = st.walletListFile ∧
    (∀ e ∈ (fetchTokenList chainId outcome st).2.errors,
      e ∈ st.errors ∨ e.operation = "fetchTokenList") := by
  cases outcome with
  | success payload =>
    rcases payload with _ | (_ | _) <;>
      exact ⟨rfl, rfl, rfl, fun e he => Or.inl he⟩
  | failure msg =>
    refine ⟨rfl, rfl, rfl, fun e he => ?_⟩
    rcases List.mem_append.1 he with h | h
    · exact Or.inl h
    · rcases List.mem_singleton.1 h with rfl
      exact Or.inr rfl

theorem fetchAllTokenLists_effects (o : Oracle) :
    ∀ (chains : List Chain) (st : RunState),
      (fetchAllTokenLists o chains st).2.1.allBalancesFile
          = st.allBalancesFile ∧
      (fetchAllTokenLists o chains st).2.1.nonZeroFile = st.nonZeroFile ∧
      (fetchAllTokenLists o chains st).2.1.walletListFile
          = st.walletListFile ∧
      (∀ e ∈ (fetchAllTokenLists o chains st).2.1.errors,
        e ∈ st.errors ∨ e.operation = "fetchTokenList") ∧
      (∀ ev ∈ (fetchAllTokenLists o chains st).2.2,
        isProbe ev = false ∧ ∀ w, isCheckpointOf w ev = false) := by
  intro chains
  induction chains with
  | nil =>
    intro st
    exact ⟨rfl, rfl, rfl, fun e he => Or.inl he, fun ev hev => absurd hev
      (List.not_mem_nil ev)⟩
  | cons chain rest ih =>
    intro st
    have hf := fetchTokenList_effects chain.id (o.tokenlist chain.id) st
    have hr := ih (fetchTokenList chain.id (o.tokenlist chain.id) st).2
    refine ⟨by rw [fetchAllTokenLists, hr.1, hf.1],
      by rw [fetchAllTokenLists, hr.2.1, hf.2.1],
      by rw [fetchAllTokenLists, hr.2.2.1, hf.2.2.1], ?_, ?_⟩
    · intro e he
      rcases hr.2.2.2.1 e he with h | h
      · rcases hf.2.2.2 e h with h2 | h2
        · exact Or.inl h2
        · exact Or.inr h2
      · exact Or.inr h
    · intro ev hev
      rcases List.mem_cons.1 hev with rfl | h
      · exact ⟨rfl, fun w => rfl⟩
      · exact hr.2.2.2.2 ev h

/-- C9 (amended): when the derived wallet set of the source list is
empty (every eligible row already removed), the run performs zero
balance probes and appends nothing to the two balance output files;
the only state growth possible is in the error log, and only from
catalog-fetch failures (operation fetchTokenList).  The claim as
stated, zero new rows in every output file, fails exactly there: see
the counterexample. -/
theorem empty_queue_run (o : Oracle) (st0 : RunState)
    (h : deriveWallets st0.walletListFile = []) :
    ((processWallets o st0).2.filter isProbe = []) ∧
    (processWallets o st0).1.allBalancesFile.getD []
      = st0.allBalancesFile.getD [] ∧
    (processWallets o st0).1.nonZeroFile.getD []
      = st0.nonZeroFile.getD [] ∧
    (∀ e ∈ (processWallets o st0).1.errors,
      e ∈ st0.errors ∨ e.operation = "fetchTokenList") := by
  have hw : deriveWallets (initializeOutputFiles st0).walletListFile = [] := by
    rw [initializeOutputFiles_walletList]
    exact h
  have hfetch := fetchAllTokenLists_effects o CHAINS (initializeOutputFiles st0)
  have hinit := initializeOutputFiles_effects st0
  have hstate : (processWallets o st0).1
      = (fetchAllTokenLists o CHAINS (initializeOutputFiles st0)).2.1 := by
    show (runWallets o (fetchAllTokenLists o CHAINS (initializeOutputFiles st0)).1
        (deriveWallets (initializeOutputFiles st0).walletListFile)
        (initializeOutputFiles st0).walletListFile
        (fetchAllTokenLists o CHAINS (initializeOutputFiles st0)).2.1).1 = _
    rw [hw]
    rfl
  have hevents : (processWallets o st0).2
      = (fetchAllTokenLists o CHAINS (initializeOutputFiles st0)).2.2 := by
    show (fetchAllTokenLists o CHAINS (initializeOutputFiles st0)).2.2 ++
        (runWallets o (fetchAllTokenLists o CHAINS (initializeOutputFiles st0)).1
          (deriveWallets (initializeOutputFiles st0).walletListFile)
          (initializeOutputFiles st0).walletListFile
          (fetchAllTokenLists o CHAINS (initializeOutputFiles st0)).2.1).2 = _
    rw [hw]
    show _ ++ ([] : List Event) = _
    rw [List.append_nil]
  refine ⟨?_, ?_, ?_, ?_⟩
  · rw [hevents, List.filter_eq_nil_iff]
    intro ev hev
    rw [(hfetch.2.2.2.2 ev hev).1]
    exact Bool.false_ne_true
  · rw [hstate, hfetch.1]
    exact hinit.2.1
  · rw [hstate, hfetch.2.1]
    exact hinit.2.2
  · intro e he
    rw [hstate] at he
    rcases hfetch.2.2.2.1 e he with h2 | h2
    · rw [hinit.1] at h2
      exact Or.inl h2
    · exact Or.inr h2

/-- C9 witness: a fresh state with an empty source list and an
all-success oracle satisfies the hypothesis and hence the amended
conclusions. -/
theorem empty_queue_run_witness :
    deriveWallets stFresh.walletListFile = [] ∧
    (((processWallets oOk stFresh).2.filter isProbe = []) ∧
      (processWallets oOk stFresh).1.allBalancesFile.getD []
        = stFresh.allBalancesFile.getD [] ∧
      (processWallets oOk stFresh).1.nonZeroFile.getD []
        = stFresh.nonZeroFile.getD [] ∧
      (∀ e ∈ (processWallets oOk stFresh).1.errors,
        e ∈ stFresh.errors ∨ e.operation = "fetchTokenList")) :=
  ⟨rfl, empty_queue_run oOk stFresh rfl⟩

/-- C9 counterexample to the claim as stated: rerunning over an
already-emptied source list with a failing catalog service appends a
new row to the error CSV output file, so the run does not leave every
output file without new rows. -/
theorem empty_queue_run_counterexample :
    deriveWallets stInitialized.walletListFile = [] ∧
    (processWallets oBoom stInitialized).1.errorCsvFile.getD []
      ≠ stInitialized.errorCsvFile.getD [] := by
  refine ⟨rfl, ?_⟩
  decide

/-! ## Claim C1: checkpointing removes the completed wallet -/

theorem probePlan_events (a : String) (tl : List (Nat × List Token)) :
    ∀ (chains : List Chain) (e : Event), e ∈ probePlan a tl chains →
      (∀ w, isCheckpointOf w e = false) ∧
      (∀ w, a ≠ w → isProbeOf w e = false) := by
  intro chains
  induction chains with
  | nil => intro e he; exact absurd he (List.not_mem_nil e)
  | cons chain rest ih =>
    intro e he
    rcases List.mem_cons.1 he with rfl | he2
    · refine ⟨fun w => rfl, fun w hw => ?_⟩
      simp [isProbeOf, hw]
    · rcases List.mem_append.1 he2 with he3 | he3
      · rcases List.mem_map.1 he3 with ⟨t, _, rfl⟩
        refine ⟨fun w => rfl, fun w hw => ?_⟩
        simp [isProbeOf, hw]
      · exact ih e he3

theorem setAdd_nodup (ws : List String) (a : String) (h : ws.Nodup) :
    (setAdd ws a).Nodup := by
  by_cases hc : ws.contains a = true
  · rw [setAdd, if_pos hc]
    exact h
  · rw [setAdd, if_neg hc]
    have hnm : a ∉ ws := fun hm => hc (List.elem_iff.2 hm)
    simp [List.nodup_append, h, hnm]

theorem addAll_nodup : ∀ (xs : List String) (acc : List String),
    acc.Nodup → (addAll acc xs).Nodup := by
  intro xs
  induction xs with
  | nil => intro acc h; exact h
  | cons x xs ih =>
    intro acc h
    exact ih (setAdd acc x) (setAdd_nodup acc x h)

theorem deriveWallets_nodup (records : List SourceRecord) :
    (deriveWallets records).Nodup := by
  have h : deriveWallets records
      = addAll [] ((records.filter eligibleRecord).map
          SourceRecord.verified_credential_address) :=
    deriveWallets_eq_addAll records []
  rw [h]
  exact addAll_nodup _ [] List.nodup_nil

theorem runWallets_foreign (o : Oracle) (tl : List (Nat × List Token))
    (w : String) :
    ∀ (ws : List String) (records : List SourceRecord) (st : RunState),
      (∀ a ∈ ws, a ≠ w) →
      ∀ e ∈ (runWallets o tl ws records st).2,
        isProbeOf w e = false ∧ isCheckpointOf w e = false := by
  intro ws
  induction ws with
  | nil => intro records st _ e he; exact absurd he (List.not_mem_nil e)
  | cons a rest ih =>
    intro records st hws e he
    have haw : a ≠ w := hws a (List.mem_cons_self a rest)
    simp only [runWallets, processWallet] at he
    rcases List.mem_append.1 he with h1 | h1
    · rw [processWalletOver_events] at h1
      have hp := probePlan_events a tl CHAINS e h1
      exact ⟨hp.2 w haw, hp.1 w⟩
    · rcases List.mem_cons.1 h1 with rfl | h2
      · refine ⟨rfl, ?_⟩
        simp [isCheckpointOf, haw]
      · exact ih _ _ (fun b hb => hws b (List.mem_cons_of_mem a hb)) e h2

theorem runWallets_decomp (o : Oracle) (tl : List (Nat × List Token))
    (w : String) :
    ∀ (ws : List String) (records : List SourceRecord) (st : RunState),
      w ∈ ws → ws.Nodup →
      ∃ pre lst post,
        (runWallets o tl ws records st).2
          = pre ++ Event.checkpoint w lst :: post ∧
        (∀ r ∈ lst, removalMatch r w = false) ∧
        (∀ e ∈ pre, isCheckpointOf w e = false) ∧
        (∀ e ∈ post, isProbeOf w e = false ∧ isCheckpointOf w e = false) := by
  intro ws
  induction ws with
  | nil => intro records st hmem _; exact absurd hmem (List.not_mem_nil w)
  | cons a rest ih =>
    intro records st hmem hnd
    by_cases haw : a = w
    · subst haw
      refine ⟨(processWallet o a tl st).events,
        (updateWalletListCsv records a (processWallet o a tl st).state).1,
        (runWallets o tl rest
          (updateWalletListCsv records a (processWallet o a tl st).state).1
          (updateWalletListCsv records a (processWallet o a tl st).state).2).2,
        rfl, ?_, ?_, ?_⟩
      · intro r hr
        have := List.of_mem_filter hr
        simpa using this
      · intro e he
        have he2 : e ∈ probePlan a tl CHAINS := by
          rw [show (processWallet o a tl st).events
              = (processWalletOver o a tl CHAINS st).events from rfl,
            processWalletOver_events] at he
          exact he
        exact (probePlan_events a tl CHAINS e he2).1 a
      · have hnin : a ∉ rest := (List.nodup_cons.1 hnd).1
        exact fun e he => runWallets_foreign o tl a rest _ _
          (fun b hb hba => hnin (hba ▸ hb)) e he
    · have hmem2 : w ∈ rest := by
        rcases List.mem_cons.1 hmem with rfl | h2
        · exact absurd rfl haw
        · exact h2
      have hnd2 : rest.Nodup := (List.nodup_cons.1 hnd).2
      rcases ih (updateWalletListCsv records a (processWallet o a tl st).state).1
          (updateWalletListCsv records a (processWallet o a tl st).state).2
          hmem2 hnd2 with ⟨pre, lst, post, heq, hlst, hpre, hpost⟩
      refine ⟨(processWallet o a tl st).events ++
          Event.checkpoint a
            (updateWalletListCsv records a (processWallet o a tl st).state).1
          :: pre, lst, post, ?_, hlst, ?_, hpost⟩
      · show (processWallet o a tl st).events ++ Event.checkpoint a _ ::
          (runWallets o tl rest _ _).2 = _
        rw [heq]
        simp [List.append_assoc]
      · intro e he
        rcases List.mem_append.1 he with h1 | h1
        · have he2 : e ∈ probePlan a tl CHAINS := by
            rw [show (processWallet o a tl st).events
                = (processWalletOver o a tl CHAINS st).events from rfl,
              processWalletOver_events] at h1
            exact h1
          exact (probePlan_events a tl CHAINS e he2).1 w
        · rcases List.mem_cons.1 h1 with rfl | h2
          · simp [isCheckpointOf, haw]
          · exact hpre e h2

/-- C1: for every wallet of the derived eligible set, the run trace
contains exactly one checkpoint event for it (none before it in the
prefix, none after it in the suffix), the record list persisted to
wallet-list.csv at that checkpoint contains no row matching the
wallet under the eligibility predicate (address, format blockchain,
provider embeddedWallet), and no probe of that wallet occurs after the
checkpoint: its whole per-chain probe loop precedes the removal. -/
theorem checkpoint_removes_wallet (o : Oracle) (st0 : RunState) (w : String)
    (hw : w ∈ deriveWallets st0.walletListFile) :
    ∃ pre lst post,
      (processWallets o st0).2 = pre ++ Event.checkpoint w lst :: post ∧
      (∀ r ∈ lst, removalMatch r w = false) ∧
      (∀ e ∈ pre, isCheckpointOf w e = false) ∧
      (∀ e ∈ post, isProbeOf w e = false ∧ isCheckpointOf w e = false) := by
  have hw2 : w ∈ deriveWallets (initializeOutputFiles st0).walletListFile := by
    rw [initializeOutputFiles_walletList]
    exact hw
  have hnd := deriveWallets_nodup (initializeOutputFiles st0).walletListFile
  rcases runWallets_decomp o
      (fetchAllTokenLists o CHAINS (initializeOutputFiles st0)).1 w
      (deriveWallets (initializeOutputFiles st0).walletListFile)
      (initializeOutputFiles st0).walletListFile
      (fetchAllTokenLists o CHAINS (initializeOutputFiles st0)).2.1
      hw2 hnd with ⟨pre, lst, post, heq, hlst, hpre, hpost⟩
  refine ⟨(fetchAllTokenLists o CHAINS (initializeOutputFiles st0)).2.2 ++ pre,
    lst, post, ?_, hlst, ?_, hpost⟩
  · show (fetchAllTokenLists o CHAINS (initializeOutputFiles st0)).2.2 ++
      (runWallets o (fetchAllTokenLists o CHAINS (initializeOutputFiles st0)).1
        (deriveWallets (initializeOutputFiles st0).walletListFile)
        (initializeOutputFiles st0).walletListFile
        (fetchAllTokenLists o CHAINS (initializeOutputFiles st0)).2.1).2 = _
    rw [heq]
    simp [List.append_assoc]
  · intro e he
    rcases List.mem_append.1 he with h1 | h1
    · exact ((fetchAllTokenLists_effects o CHAINS
        (initializeOutputFiles st0)).2.2.2.2 e h1).2 w
    · exact hpre e h1

/-- C1 witness: the concrete wallet 0xa of a one-row source list is in
the derived set, and the theorem instantiates at it. -/
theorem checkpoint_removes_wallet_witness :
    "0xa" ∈ deriveWallets stOneWallet.walletListFile ∧
    ∃ pre lst post,
      (processWallets oOk stOneWallet).2
        = pre ++ Event.checkpoint "0xa" lst :: post ∧
      (∀ r ∈ lst, removalMatch r "0xa" = false) ∧
      (∀ e ∈ pre, isCheckpointOf "0xa" e = false) ∧
      (∀ e ∈ post, isProbeOf "0xa" e = false ∧ isCheckpointOf "0xa" e = false) :=
  ⟨by decide, checkpoint_removes_wallet oOk stOneWallet "0xa" (by decide)⟩

end WalletScout
